import Mathlib

/-!
Verification of the resilient LLM-invocation layer of the event-validation
system: token-bucket rate limiter, circuit breaker, concurrency guard,
response cache, request budget, provider-fallback orchestrator and batch
coordinator, shallowly embedded from the Python sources
(`event_validator/utils/rate_limiter.py`, `circuit_breaker.py`,
`concurrency.py`, `request_budget.py`, `validators/gemini_client.py`,
`validators/groq_client.py`, `api/app.py`, `orchestration/runner.py`,
`validators/theme_validator.py`).

Conventions of the embedding:
* wall-clock instants (`time.time()`) are rationals; each Python method that
  reads the clock receives the instant as an explicit `now` argument, and a
  `time.sleep(d)` followed by a clock read is modelled as `now + d`;
* Python `float` arithmetic is modelled exactly over `ℚ`;
* `random.uniform(a, b)` draws are explicit inputs of the model, constrained
  to `[a, b]` in the hypotheses of theorems that need the bound;
* SHA-256/MD5 cache keys are modelled by the pre-image string that the code
  feeds to the hash (collisions are assumed absent, so a dictionary keyed by
  the digest behaves exactly like one keyed by the pre-image).
-/

set_option maxRecDepth 8000

namespace EventValidator

/-! ## Circuit breaker (`event_validator/utils/circuit_breaker.py`) -/

/-- States of `CircuitState` (CLOSED / OPEN / HALF_OPEN). -/

inductive CircuitState where
  | closed
  | opened
  | halfOpen
deriving DecidableEq, Repr

/-- Constructor parameters of `CircuitBreaker.__init__`. -/

structure CBConfig where
  errorThreshold : ℚ
  windowDuration : ℚ
  cooldownDuration : ℚ
  halfOpenMaxAttempts : ℕ
  minErrorsToOpen : ℕ
deriving Repr

/-- Default constructor arguments of `CircuitBreaker.__init__` (also the
values `get_gemini_circuit_breaker` / `get_groq_circuit_breaker` install when
no environment override is present). -/

def CBConfig.default : CBConfig :=
  { errorThreshold := 7/10
    windowDuration := 30
    cooldownDuration := 10
    halfOpenMaxAttempts := 1
    minErrorsToOpen := 20 }

/-- Mutable attributes of one `CircuitBreaker` instance. -/

structure CBState where
  state : CircuitState
  errorCount : ℕ
  successCount : ℕ
  totalRequests : ℕ
  windowStart : ℚ
  openUntil : Option ℚ
  halfOpenAttempts : ℕ
deriving DecidableEq, Repr

/-- State right after `CircuitBreaker.__init__` at instant `now`. -/

def CBState.init (now : ℚ) : CBState :=
  { state := .closed
    errorCount := 0
    successCount := 0
    totalRequests := 0
    windowStart := now
    openUntil := none
    halfOpenAttempts := 0 }

/-- `CircuitBreaker._check_window_reset`. -/

def checkWindowReset (cfg : CBConfig) (now : ℚ) (s : CBState) : CBState :=
  if cfg.windowDuration < now - s.windowStart then
    { s with errorCount := 0, successCount := 0, totalRequests := 0, windowStart := now }
  else s

/-- Error rate as computed in `CircuitBreaker._check_threshold`:
`self.error_count / max(1, self.total_requests)`. -/

def errorRate (s : CBState) : ℚ :=
  (s.errorCount : ℚ) / ((max 1 s.totalRequests : ℕ) : ℚ)

/-- `CircuitBreaker._check_threshold`. -/

def checkThreshold (cfg : CBConfig) (now : ℚ) (s : CBState) : CBState :=
  if s.state = .opened then s
  else if s.totalRequests = 0 then s
  else if 0 < now - s.windowStart then
    if cfg.errorThreshold ≤ errorRate s ∧ cfg.minErrorsToOpen ≤ s.errorCount ∧
        10 ≤ s.totalRequests then
      { s with state := .opened, openUntil := some (now + cfg.cooldownDuration) }
    else s
  else s

/-- `CircuitBreaker.record_success` (Python `max(0, error_count - 1)` is `ℕ`
truncated subtraction). -/

def recordSuccess (cfg : CBConfig) (now : ℚ) (s : CBState) : CBState :=
  let s1 := { s with totalRequests := s.totalRequests + 1,
                     successCount := s.successCount + 1 }
  let s2 :=
    match s1.state with
    | .halfOpen =>
        if cfg.halfOpenMaxAttempts ≤ s1.halfOpenAttempts then
          { s1 with state := .closed, halfOpenAttempts := 0 }
        else
          { s1 with halfOpenAttempts := s1.halfOpenAttempts + 1 }
    | .opened => { s1 with errorCount := s1.errorCount - 1 }
    | .closed => s1
  checkWindowReset cfg now s2

/-- `CircuitBreaker.record_error`. -/

def recordError (cfg : CBConfig) (now : ℚ) (isRateLimit : Bool) (s : CBState) : CBState :=
  let s1 := { s with totalRequests := s.totalRequests + 1,
                     errorCount := if isRateLimit then s.errorCount + 1 else s.errorCount }
  let s2 :=
    if s1.state = .halfOpen then
      { s1 with state := .opened,
                openUntil := some (now + cfg.cooldownDuration),
                halfOpenAttempts := 0 }
    else s1
  checkWindowReset cfg now (checkThreshold cfg now s2)

/-- `CircuitBreaker.can_proceed` along with its side effect on the state.
Python tests `if self.open_until and now >= self.open_until`, so an
`open_until` equal to `0.0` is falsy. -/

def canProceed (now : ℚ) (s : CBState) : Bool × CBState :=
  if s.state = .opened then
    match s.openUntil with
    | some u =>
        if u ≠ 0 ∧ u ≤ now then
          (true, { s with state := .halfOpen, halfOpenAttempts := 0 })
        else
          (false, s)
    | none => (false, s)
  else
    (true, s)

/-! ## Token-bucket rate limiter (`event_validator/utils/rate_limiter.py`) -/

/-- The effective per-minute ceiling computed in
`TokenBucketRateLimiter.__init__`:
`int(requests_per_minute * min(safety_factor, 0.95))` (Python `int()` is floor
for non-negative values). -/

def effectiveLimit (requestsPerMinute : ℕ) (safetyFactor : ℚ) : ℕ :=
  (⌊(requestsPerMinute : ℚ) * min safetyFactor (19/20)⌋).toNat

/-- Mutable state of one `TokenBucketRateLimiter`: the deque of recorded
request timestamps (oldest first) and `_last_request_time`. -/

structure RLState where
  times : List ℚ
  lastRequestTime : ℚ
deriving DecidableEq, Repr

/-- State right after `TokenBucketRateLimiter.__init__`. -/

def RLState.init : RLState := ⟨[], 0⟩

/-- One `acquire(wait=True)` call at clock instant `now`. `tokenMult` is the
token multiplier (1, 1.1 or 1.2 depending on `estimated_tokens`); `jitter` is
the `random.uniform(jitter_min, jitter_max)` draw, consulted only when
`jitterEnabled` and the delay is positive. The timestamp recorded after the
sleep is `now + appliedDelay`. The deque was created with
`maxlen = 2 * limit`, so appending beyond that drops the oldest entry. -/

def acquireRL (limit : ℕ) (jitterEnabled : Bool) (now jitter tokenMult : ℚ)
    (s : RLState) : ℚ × RLState :=
  let ts := s.times.dropWhile (fun t => decide (t < now - 60))
  let delay :=
    if limit ≤ ts.length then
      (max 0 ((ts.headD 0 + 60) - now + 1/10)) * tokenMult
    else
      let minInterval := 60 / (limit : ℚ)
      let timeSinceLast := now - s.lastRequestTime
      if timeSinceLast < minInterval then (minInterval - timeSinceLast) * tokenMult
      else 0
  let delayJ := if jitterEnabled ∧ 0 < delay then delay * jitter else delay
  let requestTime := now + delayJ
  let times2 := ts ++ [requestTime]
  let times3 := if 2 * limit < times2.length then times2.tail else times2
  (delayJ, ⟨times3, requestTime⟩)

/-- The admitted timestamps of a sequence of `acquire` calls, each input being
`(now, jitter draw, token multiplier)`. -/

def runRL (limit : ℕ) (jitterEnabled : Bool) : RLState → List (ℚ × ℚ × ℚ) → List ℚ
  | _, [] => []
  | s, (now, jitter, tm) :: rest =>
      let s2 := (acquireRL limit jitterEnabled now jitter tm s).2
      s2.lastRequestTime :: runRL limit jitterEnabled s2 rest

/-- Well-formedness of an input sequence: calls are serialized by the
limiter's lock (each `acquire` holds it through the sleep and the recording),
so each call's clock reading is at least the previous recorded timestamp. -/

def ValidTrace (limit : ℕ) (jitterEnabled : Bool) : RLState → List (ℚ × ℚ × ℚ) → Prop
  | _, [] => True
  | s, (now, jitter, tm) :: rest =>
      s.lastRequestTime ≤ now ∧
      ValidTrace limit jitterEnabled
        (acquireRL limit jitterEnabled now jitter tm s).2 rest

/-- The invariant tying the full history of admitted timestamps to the
limiter's state. `hist` is everything recorded so far (evicted entries
included); the trailing-window property is carried along with the structural
facts needed to extend it by one more `acquire`. -/

structure RLInv (limit : ℕ) (hist : List ℚ) (s : RLState) : Prop where
  histSuffix : ∃ pre, hist = pre ++ s.times ∧ ∀ t ∈ pre, t < s.lastRequestTime - 60
  timesLe : ∀ t ∈ s.times, t ≤ s.lastRequestTime
  lenLe : s.times.length ≤ limit + 1
  lenCap : limit + 1 ≤ s.times.length → s.times.headD 0 + 60 < s.lastRequestTime
  winOK : ∀ T : ℚ,
    (hist.countP fun t => decide (T - 60 ≤ t ∧ t ≤ T)) ≤ limit

/-! ## Request budget (`event_validator/utils/request_budget.py`) -/

/-- Fields of the `RequestBudget` dataclass; `call_history` entries are
`(type, success, call_number)`. -/

structure RequestBudget where
  submissionId : String
  maxCalls : ℕ
  callsUsed : ℕ
  callHistory : List (String × Bool × ℕ)
deriving DecidableEq, Repr

/-- `RequestBudget.can_make_call`: false once `calls_used >= max_calls`. -/

def RequestBudget.canMakeCall (b : RequestBudget) : Bool :=
  if b.maxCalls ≤ b.callsUsed then false else true

/-- `RequestBudget.record_call`. -/

def RequestBudget.recordCall (b : RequestBudget) (callType : String) (success : Bool) :
    RequestBudget :=
  { b with callsUsed := b.callsUsed + 1,
           callHistory := b.callHistory ++ [(callType, success, b.callsUsed + 1)] }

/-! ## Concurrency guard (`event_validator/utils/concurrency.py`) -/

/-- How the body wrapped by the guard exits: normal completion, an exception
raised by the wrapped provider call, or an externally injected cancellation. -/

inductive BodyOutcome (α : Type) where
  | ok (a : α)
  | raised
  | cancelled
deriving DecidableEq, Repr

/-- `gemini_concurrency_guard` / `groq_concurrency_guard` (both have the same
body, differing only in which semaphore they use). `slots` is the semaphore's
count of available slots. `acquireRaises` models an exception escaping
`semaphore.acquire()` itself (before `acquired = True` runs); the `finally`
block releases only when the `acquired` flag was set. Returns the outcome
propagated to the caller, the semaphore count after exit, and the value of
`acquired` at exit. -/

def concurrencyGuard {α : Type} (slots : ℕ) (acquireRaises : Bool)
    (body : BodyOutcome α) : BodyOutcome α × ℕ × Bool :=
  if acquireRaises then
    (.cancelled, slots, false)
  else
    let slotsHeld := slots - 1
    (body, slotsHeld + 1, true)

/-! ## Response-cache keys (`GeminiClient._get_cache_key`) -/

/-- Python truthiness of an optional string (`if image_hash:`). -/

def strTruthy : Option String → Bool
  | some s => !s.isEmpty
  | none => false

/-- `GeminiClient._get_cache_key`: the string fed to `hashlib.sha256`; the
digest itself is modelled by its pre-image (see the file header). -/

def getCacheKey (textModel prompt : String) (model : Option String)
    (imageHash pdfHash : Option String) : String :=
  let content := (model.getD textModel) ++ ":" ++ prompt
  let content := if strTruthy imageHash then content ++ ":img:" ++ (imageHash.getD "") else content
  if strTruthy pdfHash then content ++ ":pdf:" ++ (pdfHash.getD "") else content

/-! ## Provider fallback orchestrator
(`GeminiClient._call_gemini` in `validators/gemini_client.py` and
`GroqClient._call_groq` in `validators/groq_client.py`) -/

/-- Outcome of one network attempt against a provider: either the API call
returned (with `text` the extracted, stripped response text, possibly empty)
or it raised an exception, classified by the client's 429/quota/rate-limit
string match. -/

inductive NetOutcome where
  | ok (text : String)
  | exn (isRateLimit : Bool)
deriving DecidableEq, Repr

/-- The process-wide mutable structures both clients touch: the two response
caches (`_gemini_response_cache`, `_groq_response_cache`, as association
lists) and the two circuit breakers. -/

structure Clients where
  gemCache : List (String × String)
  groqCache : List (String × String)
  gemCB : CBState
  groqCB : CBState
deriving DecidableEq, Repr

/-- Oracle inputs of one `_call_gemini` run: the outcomes of successive
Gemini and Groq network attempts, and successive `time.time()` readings
consumed by circuit-breaker operations (when exhausted, further readings
default to 0). -/

structure Oracle where
  gem : List NetOutcome
  groq : List NetOutcome
  times : List ℚ
deriving DecidableEq, Repr

/-- Next `time.time()` reading. -/

def Oracle.popTime (o : Oracle) : ℚ × Oracle :=
  (o.times.headD 0, { o with times := o.times.tail })

/-- Outcome of the next Gemini network attempt. -/

def Oracle.popGem (o : Oracle) : NetOutcome × Oracle :=
  (o.gem.headD (.exn false), { o with gem := o.gem.tail })

/-- Outcome of the next Groq network attempt. -/

def Oracle.popGroq (o : Oracle) : NetOutcome × Oracle :=
  (o.groq.headD (.exn false), { o with groq := o.groq.tail })

/-- Dictionary lookup (`key in cache` / `cache[key]`). -/

def cacheGet (c : List (String × String)) (k : String) : Option String :=
  (c.find? (fun p => p.1 = k)).map (·.2)

/-- Dictionary store (`cache[key] = value`); the new binding shadows any
older one, matching dict assignment. -/

def cachePut (c : List (String × String)) (k v : String) : List (String × String) :=
  (k, v) :: c

/-- Constructor state of a `GroqClient`. -/

structure GroqCfg where
  clientAvailable : Bool
  textModel : String
  imageModel : String
  cbCfg : CBConfig
  maxRetries : ℕ
deriving Repr

/-- `GroqClient._get_cache_key`: pre-image of the MD5 digest. -/

def groqCacheKey (textModel prompt : String) (model : Option String) : String :=
  (model.getD textModel) ++ ":" ++ prompt

/-- The `for attempt in range(max_retries)` loop of `GroqClient._call_groq`,
recursing over the list of remaining attempt indices
(`List.range maxRetries` at the call site). Returns (result, shared state,
remaining oracle, number of Groq network attempts performed). The
rate-limiter `acquire` calls and the backoff sleeps have no control-flow
effect and are not tracked here. -/

def groqLoop (cfg : CBConfig) (key : String) (useCache : Bool) (maxRetries : ℕ) :
    List ℕ → Clients → Oracle → ℕ → Option String × Clients × Oracle × ℕ
  | [], st, o, net => (none, st, o, net)
  | attempt :: rest, st, o, net =>
      let check : Bool × Clients × Oracle :=
        if 0 < attempt then
          let (t, o) := o.popTime
          let (okP, cb) := canProceed t st.groqCB
          (okP, { st with groqCB := cb }, o)
        else (true, st, o)
      let okP := check.1
      let st := check.2.1
      let o := check.2.2
      if !okP then (none, st, o, net)
      else
        let (out, o) := o.popGroq
        let net := net + 1
        match out with
        | .ok text =>
            if text.isEmpty then (none, st, o, net)
            else
              let (t, o) := o.popTime
              let st := { st with groqCB := recordSuccess cfg t st.groqCB }
              let st :=
                if useCache then { st with groqCache := cachePut st.groqCache key text }
                else st
              (some text, st, o, net)
        | .exn isRL =>
            if isRL then
              let (t, o) := o.popTime
              let st := { st with groqCB := recordError cfg t true st.groqCB }
              let (t2, o) := o.popTime
              let (okP2, cb2) := canProceed t2 st.groqCB
              let st := { st with groqCB := cb2 }
              if !okP2 then (none, st, o, net)
              else if attempt = maxRetries - 1 then
                let (t3, o) := o.popTime
                let st := { st with groqCB := recordError cfg t3 true st.groqCB }
                (none, st, o, net)
              else groqLoop cfg key useCache maxRetries rest st o net
            else if attempt = maxRetries - 1 then
              let (t3, o) := o.popTime
              let st := { st with groqCB := recordError cfg t3 false st.groqCB }
              (none, st, o, net)
            else groqLoop cfg key useCache maxRetries rest st o net

/-- `GroqClient._call_groq`: client check, cache lookup, circuit-breaker
check, then the retry loop. -/

def callGroq (gcfg : GroqCfg) (prompt : String) (modelArg : Option String)
    (useCache : Bool) (st : Clients) (o : Oracle) :
    Option String × Clients × Oracle × ℕ :=
  if !gcfg.clientAvailable then (none, st, o, 0)
  else
    let model := modelArg.getD gcfg.textModel
    let key := groqCacheKey gcfg.textModel prompt (some model)
    match (if useCache then cacheGet st.groqCache key else none) with
    | some v => (some v, st, o, 0)
    | none =>
        let (t, o) := o.popTime
        let (okP, cb) := canProceed t st.groqCB
        let st := { st with groqCB := cb }
        if !okP then (none, st, o, 0)
        else groqLoop gcfg.cbCfg key useCache gcfg.maxRetries (List.range gcfg.maxRetries) st o 0

/-- Constructor state of a `GeminiClient`. `groqPresent` is
`self.groq_client is not None`; `groq.clientAvailable` is the fallback
client's own `self.client`. -/

structure GemCfg where
  clientAvailable : Bool
  textModel : String
  visionModel : String
  groqPresent : Bool
  groq : GroqCfg
  cbCfg : CBConfig
  maxRetries : ℕ
deriving Repr

/-- Arguments of one `_call_gemini` invocation. `imagePresent` is
`image_path is not None`; `imageHash` is the content digest computed when the
file exists and hashing succeeds (`None` otherwise). -/

structure GemReq where
  prompt : String
  modelArg : Option String
  imagePresent : Bool
  imageHash : Option String
  useCache : Bool
deriving Repr

/-- Result of one `_call_gemini` run: the returned value, the shared mutable
state, the unconsumed oracle, and the counts of Gemini network attempts,
`_call_groq` invocations, and Groq network attempts. -/

structure GemOut where
  result : Option String
  st : Clients
  o : Oracle
  gemNet : ℕ
  groqInvocations : ℕ
  groqNet : ℕ
deriving Repr

/-- The `for attempt in range(max_retries)` loop of
`GeminiClient._call_gemini`, recursing over the list of remaining attempt
indices (`List.range cfg.maxRetries` at the call site). The response cache is
written with `_get_cache_key(prompt, model, image_hash)` — the FULL image
hash (`gemini_client.py` line 265), unlike the lookup, which truncates it to
16 characters (line 168). -/

def gemLoop (cfg : GemCfg) (req : GemReq) (model : String) :
    List ℕ → Clients → Oracle → ℕ → GemOut
  | [], st, o, gn => ⟨none, st, o, gn, 0, 0⟩
  | attempt :: rest, st, o, gn =>
      let check : Bool × Clients × Oracle :=
        if 0 < attempt then
          let (t, o) := o.popTime
          let (okP, cb) := canProceed t st.gemCB
          (okP, { st with gemCB := cb }, o)
        else (true, st, o)
      let okP := check.1
      let st := check.2.1
      let o := check.2.2
      if !okP then
        if cfg.groqPresent ∧ ¬req.imagePresent then
          let (r, st, o, n) := callGroq cfg.groq req.prompt none req.useCache st o
          ⟨r, st, o, gn, 1, n⟩
        else ⟨none, st, o, gn, 0, 0⟩
      else
        let (out, o) := o.popGem
        let gn := gn + 1
        match out with
        | .ok text =>
            if text.isEmpty then ⟨none, st, o, gn, 0, 0⟩
            else
              let (t, o) := o.popTime
              let st := { st with gemCB := recordSuccess cfg.cbCfg t st.gemCB }
              let storeKey := getCacheKey cfg.textModel req.prompt (some model) req.imageHash none
              let st :=
                if req.useCache then { st with gemCache := cachePut st.gemCache storeKey text }
                else st
              ⟨some text, st, o, gn, 0, 0⟩
        | .exn isRL =>
            let afterRL : Bool × Clients × Oracle :=
              if isRL then
                let (t, o) := o.popTime
                let st := { st with gemCB := recordError cfg.cbCfg t true st.gemCB }
                let (t2, o) := o.popTime
                let (okP2, cb2) := canProceed t2 st.gemCB
                (okP2, { st with gemCB := cb2 }, o)
              else (true, st, o)
            let okP2 := afterRL.1
            let st := afterRL.2.1
            let o := afterRL.2.2
            if !okP2 then
              if cfg.groqPresent ∧ ¬req.imagePresent then
                let (r, st, o, n) := callGroq cfg.groq req.prompt none req.useCache st o
                ⟨r, st, o, gn, 1, n⟩
              else ⟨none, st, o, gn, 0, 0⟩
            else if attempt = cfg.maxRetries - 1 then
              if cfg.groqPresent ∧ cfg.groq.clientAvailable then
                if req.imagePresent then
                  let (r, st, o, n) :=
                    callGroq cfg.groq req.prompt (some cfg.groq.imageModel) req.useCache st o
                  ⟨r, st, o, gn, 1, n⟩
                else
                  let (r, st, o, n) :=
                    callGroq cfg.groq req.prompt (some cfg.groq.textModel) req.useCache st o
                  ⟨r, st, o, gn, 1, n⟩
              else ⟨none, st, o, gn, 0, 0⟩
            else gemLoop cfg req model rest st o gn

/-- `GeminiClient._call_gemini`: client check (with immediate text-only Groq
fallback when the Gemini client is unavailable), model selection, cache
lookup — which for image requests uses `image_hash[:16]`
(`gemini_client.py` line 168) — circuit-breaker check (with text-only Groq
fallback), rate-limiter acquisition (no control-flow effect), then the retry
loop. -/

def callGemini (cfg : GemCfg) (req : GemReq) (st : Clients) (o : Oracle) : GemOut :=
  if !cfg.clientAvailable then
    if cfg.groqPresent ∧ cfg.groq.clientAvailable ∧ ¬req.imagePresent then
      let (r, st, o, n) := callGroq cfg.groq req.prompt none req.useCache st o
      ⟨r, st, o, 0, 1, n⟩
    else ⟨none, st, o, 0, 0, 0⟩
  else
    let model := req.modelArg.getD (if req.imagePresent then cfg.visionModel else cfg.textModel)
    let lookup : Option String :=
      if req.useCache ∧ strTruthy req.imageHash then
        cacheGet st.gemCache
          (getCacheKey cfg.textModel req.prompt (some model)
            (some ((req.imageHash.getD "").take 16)) none)
      else if req.useCache ∧ ¬req.imagePresent then
        cacheGet st.gemCache (getCacheKey cfg.textModel req.prompt (some model) none none)
      else none
    match lookup with
    | some v => ⟨some v, st, o, 0, 0, 0⟩
    | none =>
        let (t, o) := o.popTime
        let (okP, cb) := canProceed t st.gemCB
        let st := { st with gemCB := cb }
        if !okP then
          if cfg.groqPresent ∧ ¬req.imagePresent then
            let (r, st, o, n) := callGroq cfg.groq req.prompt none req.useCache st o
            ⟨r, st, o, 0, 1, n⟩
          else ⟨none, st, o, 0, 0, 0⟩
        else gemLoop cfg req model (List.range cfg.maxRetries) st o 0

/-- The `GroqClient` built by `GeminiClient.__init__` when keys and packages
are present: real model names, default circuit breaker, `max_retries = 3`
(no call site overrides it). -/

def groqCfg0 : GroqCfg :=
  { clientAvailable := true
    textModel := "llama-3.1-8b-instant"
    imageModel := "meta-llama/llama-4-scout-17b-16e-instruct"
    cbCfg := CBConfig.default
    maxRetries := 3 }

/-- A fully initialized `GeminiClient` with Groq fallback. -/

def gemCfg0 : GemCfg :=
  { clientAvailable := true
    textModel := "gemini-2.5-pro"
    visionModel := "gemini-2.5-pro"
    groqPresent := true
    groq := groqCfg0
    cbCfg := CBConfig.default
    maxRetries := 3 }

/-- Fresh process-wide state: empty caches, both breakers just initialized. -/

def clients0 : Clients :=
  { gemCache := [], groqCache := [], gemCB := CBState.init 0, groqCB := CBState.init 0 }

/-! ## Batch coordinator (`validate_batch` in `event_validator/api/app.py`) -/

/-- Mode under which one submission of a batch is processed. -/

inductive ProcMode where
  | parallel
  | sequential
deriving DecidableEq, Repr

/-- Outcome of one `validate_batch` call. `modes` records, per submission, the
mode it was processed under; `flagAfter` is the value of the module-level
`_rate_limit_detected` event when the batch finishes. -/

structure BatchRun where
  modes : List ProcMode
  flagAfter : Bool
deriving DecidableEq, Repr

/-- The scheduling skeleton of `validate_batch`: `use_sequential` is read from
`_rate_limit_detected` once, before any submission is processed; every
submission of the batch is then processed under that one mode. Each element of
`subs` says whether a throttling error is observed while processing that
submission (which sets `_rate_limit_detected`, via the worker's exception
handler in parallel mode or via the rate-limit callback installed by
`get_gemini_client`); `validate_batch` never clears the event. -/

def validateBatch (flag : Bool) (subs : List Bool) : BatchRun :=
  let useSequential := flag
  if useSequential then
    { modes := subs.map fun _ => ProcMode.sequential, flagAfter := flag || subs.any id }
  else
    { modes := subs.map fun _ => ProcMode.parallel, flagAfter := flag || subs.any id }

/-! ## Theme check and final status
(`GeminiClient.check_theme_alignment`, `theme_validator.py`, `runner.py`) -/

/-- Whether the character list `pat` occurs at the start of `text`. -/

def startsWithChars : List Char → List Char → Bool
  | _, [] => true
  | [], _ :: _ => false
  | c :: cs, p :: ps => c = p && startsWithChars cs ps

/-- Whether the character list `pat` occurs anywhere inside `text`. -/

def containsChars (text pat : List Char) : Bool :=
  match text with
  | [] => pat.isEmpty
  | _ :: rest => startsWithChars text pat || containsChars rest pat

/-- Whether `"YES" in response.upper()` holds. -/

def containsYES (s : String) : Bool :=
  containsChars (s.toList.map Char.toUpper) "YES".toList

/-- `GeminiClient.check_theme_alignment`: the primary `_call_gemini` response
decides directly; when it is `None` the parallel fallback consults the Gemini
retry and the Groq fallback (in whichever order they complete, selected by
`geminiFirst`); when everything fails the method defaults to `False`. -/

def checkThemeAlignment (primary retry : Option String) (groq : Option Bool)
    (geminiFirst : Bool) : Bool :=
  match primary with
  | some r => containsYES r
  | none =>
      if geminiFirst then
        match retry with
        | some r => containsYES r
        | none => match groq with | some b => b | none => false
      else
        match groq with
        | some b => b
        | none => match retry with | some r => containsYES r | none => false

/-- The fields of a `ValidationResult` that reach the operator-visible output. -/

structure ValidationResult where
  passed : Bool
  pointsAwarded : ℕ
  message : String
deriving DecidableEq, Repr

/-- Tail of `validate_theme_alignment`: how the boolean alignment verdict is
turned into the reported `ValidationResult`. -/

def validateThemeAlignment (aligned : Bool) (points : ℕ) (failureMsg : String) :
    ValidationResult :=
  if aligned then
    { passed := true, pointsAwarded := points, message := "" }
  else
    { passed := false, pointsAwarded := 0, message := failureMsg }

/-- Status assignment at the end of `process_submission` in
`orchestration/runner.py`. -/

def determineStatus (pdfMissing imagesMissing : Bool) (totalPoints threshold : ℕ) :
    String :=
  if pdfMissing then "Reopen"
  else if imagesMissing then "Reopen"
  else if threshold ≤ totalPoints then "Accepted"
  else "Rejected"

/-! ## Theorems -/

theorem checkWindowReset_state (cfg : CBConfig) (now : ℚ) (s : CBState) :
    (checkWindowReset cfg now s).state = s.state := by
  unfold checkWindowReset
  split <;> rfl

theorem checkWindowReset_openUntil (cfg : CBConfig) (now : ℚ) (s : CBState) :
    (checkWindowReset cfg now s).openUntil = s.openUntil := by
  unfold checkWindowReset
  split <;> rfl

/-- C2: a `record_error` that brings the rolling window to at least 10 recorded
calls with `error_count ≥ min_errors_to_open` and error rate at least the
threshold opens the circuit, sets `open_until` to `now + cooldown`, and from
then on `can_proceed` answers `false` exactly until `cooldown` seconds have
elapsed since the circuit opened (and `true` from that moment on). -/
theorem circuit_opens_on_threshold_and_blocks_until_cooldown
    (cfg : CBConfig) (s : CBState) (t : ℚ)
    (hstate : s.state ≠ .opened)
    (hwin : s.windowStart < t) (ht : 0 ≤ t) (hcd : 0 < cfg.cooldownDuration)
    (htot : 10 ≤ s.totalRequests + 1)
    (herr : cfg.minErrorsToOpen ≤ s.errorCount + 1)
    (hrate : cfg.errorThreshold ≤
      ((s.errorCount + 1 : ℕ) : ℚ) / ((max 1 (s.totalRequests + 1) : ℕ) : ℚ)) :
    (recordError cfg t true s).state = .opened ∧
    (recordError cfg t true s).openUntil = some (t + cfg.cooldownDuration) ∧
    ∀ t2 : ℚ,
      ((canProceed t2 (recordError cfg t true s)).1 = true ↔
        t + cfg.cooldownDuration ≤ t2) := by
  have key : (recordError cfg t true s).state = .opened ∧
      (recordError cfg t true s).openUntil = some (t + cfg.cooldownDuration) := by
    rw [recordError]
    cases hcs : s.state with
    | opened => exact absurd hcs hstate
    | halfOpen =>
        simp only [hcs, ite_true]
        rw [checkThreshold]
        dsimp only
        rw [if_pos rfl, checkWindowReset_state, checkWindowReset_openUntil]
        exact ⟨rfl, rfl⟩
    | closed =>
        simp only [hcs]
        rw [if_neg (by simp), checkThreshold]
        dsimp only
        have hrate2 : cfg.errorThreshold ≤
            errorRate { s with totalRequests := s.totalRequests + 1,
                               errorCount := s.errorCount + 1 } := by
          rw [errorRate]
          exact hrate
        rw [if_neg (by simp), if_neg (by simp),
          if_pos (show (0 : ℚ) < t - s.windowStart by linarith),
          if_pos ⟨hrate2, herr, htot⟩,
          checkWindowReset_state, checkWindowReset_openUntil]
        exact ⟨rfl, rfl⟩
  refine ⟨key.1, key.2, ?_⟩
  intro t2
  have hne : t + cfg.cooldownDuration ≠ 0 := by positivity
  rw [canProceed, if_pos key.1, key.2]
  dsimp only
  by_cases hle : t + cfg.cooldownDuration ≤ t2
  · rw [if_pos ⟨hne, hle⟩]
    simpa using hle
  · rw [if_neg (by tauto)]
    simpa using hle

/-- Concrete instantiation of
`circuit_opens_on_threshold_and_blocks_until_cooldown`: a closed breaker with
19 rate-limit errors out of 19 requests receives a 20th rate-limit error at
`t = 1`; it opens with `open_until = 11`, and `can_proceed` is `true` at
`t = 11`. -/
theorem circuit_opens_on_threshold_witness :
    let s0 : CBState :=
      { state := .closed, errorCount := 19, successCount := 0, totalRequests := 19,
        windowStart := 0, openUntil := none, halfOpenAttempts := 0 }
    (recordError CBConfig.default 1 true s0).state = .opened ∧
    (recordError CBConfig.default 1 true s0).openUntil =
      some (1 + CBConfig.default.cooldownDuration) ∧
    ((canProceed 11 (recordError CBConfig.default 1 true s0)).1 = true ↔
      1 + CBConfig.default.cooldownDuration ≤ 11) := by
  intro s0
  obtain ⟨h1, h2, h3⟩ :=
    circuit_opens_on_threshold_and_blocks_until_cooldown CBConfig.default s0 1
      (by decide) (by norm_num [s0]) (by norm_num) (by norm_num [CBConfig.default])
      (by norm_num [s0]) (by norm_num [s0, CBConfig.default])
      (by norm_num [s0, CBConfig.default])
  exact ⟨h1, h2, h3 11⟩

/-- C5 (code bug): with the default `half_open_max_attempts = 1`, one
successful half-open trial does not close the circuit. After the cooldown the
next `can_proceed` does move the breaker to HALF_OPEN, but `record_success`
compares the attempt counter *before* incrementing it, so the first success
leaves the breaker HALF_OPEN and only the second success closes it. -/
theorem one_halfopen_success_leaves_circuit_halfopen :
    let s0 : CBState :=
      { state := .opened, errorCount := 20, successCount := 0, totalRequests := 20,
        windowStart := 0, openUntil := some 10, halfOpenAttempts := 0 }
    (canProceed 10 s0).1 = true ∧
    (canProceed 10 s0).2.state = .halfOpen ∧
    (recordSuccess CBConfig.default 10 (canProceed 10 s0).2).state = .halfOpen ∧
    (recordSuccess CBConfig.default 10
      (recordSuccess CBConfig.default 10 (canProceed 10 s0).2)).state = .closed := by
  norm_num [canProceed, recordSuccess, checkWindowReset, CBConfig.default]

/-- C6: any error recorded while the breaker is HALF_OPEN re-opens the circuit
and restarts the cooldown clock from the moment of the error. -/
theorem halfopen_error_reopens_and_resets_cooldown
    (cfg : CBConfig) (t : ℚ) (b : Bool) (s : CBState) (h : s.state = .halfOpen) :
    (recordError cfg t b s).state = .opened ∧
    (recordError cfg t b s).openUntil = some (t + cfg.cooldownDuration) := by
  rw [recordError]
  simp only [h]
  rw [checkThreshold]
  simp only [reduceIte]
  exact ⟨checkWindowReset_state _ _ _, checkWindowReset_openUntil _ _ _⟩

/-- Concrete instantiation of `halfopen_error_reopens_and_resets_cooldown`:
a half-open breaker receiving a (non-rate-limit) error at `t = 5` reopens with
`open_until = 5 + cooldown`. -/
theorem halfopen_error_reopens_witness :
    let s0 : CBState :=
      { state := .halfOpen, errorCount := 19, successCount := 0, totalRequests := 20,
        windowStart := 0, openUntil := some 10, halfOpenAttempts := 0 }
    (recordError CBConfig.default 5 false s0).state = .opened ∧
    (recordError CBConfig.default 5 false s0).openUntil =
      some (5 + CBConfig.default.cooldownDuration) :=
  halfopen_error_reopens_and_resets_cooldown CBConfig.default 5 false _ (by decide)

/-- After lazy eviction the deque holds at most `limit` entries: either it was
within `limit` already, or it held `limit + 1` entries and the at-capacity
gap guarantees the oldest one is expired at any `now` past the last record. -/
theorem evicted_len_le (limit : ℕ) (now : ℚ) (s : RLState)
    (hnow : s.lastRequestTime ≤ now)
    (hlen : s.times.length ≤ limit + 1)
    (hcap : limit + 1 ≤ s.times.length → s.times.headD 0 + 60 < s.lastRequestTime) :
    (s.times.dropWhile (fun t => decide (t < now - 60))).length ≤ limit := by
  rcases Nat.lt_or_ge s.times.length (limit + 1) with hl | hl
  · exact le_trans (List.Sublist.length_le (List.dropWhile_sublist _)) (by omega)
  · have hgap := hcap hl
    cases hS : s.times with
    | nil => rw [hS] at hl; simp at hl
    | cons h rest =>
        have hh : decide (h < now - 60) = true := by
          apply decide_eq_true
          have hhd : s.times.headD 0 = h := by rw [hS]; rfl
          rw [hhd] at hgap
          linarith
        rw [List.dropWhile_cons, if_pos hh]
        have h1 : rest.length + 1 ≤ limit + 1 := by
          have := hlen
          rw [hS, List.length_cons] at this
          omega
        exact le_trans (List.Sublist.length_le (List.dropWhile_sublist _)) (by omega)

/-- Unfolding of one `acquire` call when the post-eviction deque is within
`limit` (so the `maxlen` of the deque never bites): the applied delay is
non-negative, the evicted deque plus the new timestamp `now + d` becomes the
new deque, and when the window was at capacity the new timestamp clears the
oldest surviving one by more than 60 seconds (the code waits until the oldest
entry expires plus 0.1 s, and multipliers ≥ 1 only lengthen the wait). -/
theorem acquireRL_spec (limit : ℕ) (jb : Bool) (now j tm : ℚ) (s : RLState)
    (hlim : 1 ≤ limit) (hj : 1 ≤ j) (htm : 1 ≤ tm)
    (htsLen : (s.times.dropWhile (fun t => decide (t < now - 60))).length ≤ limit) :
    ∃ d : ℚ, 0 ≤ d ∧
      acquireRL limit jb now j tm s =
        (d, ⟨(s.times.dropWhile (fun t => decide (t < now - 60))) ++ [now + d], now + d⟩) ∧
      (limit ≤ (s.times.dropWhile (fun t => decide (t < now - 60))).length →
        (s.times.dropWhile (fun t => decide (t < now - 60))).headD 0 + 60 + 1/10 ≤
          now + d) := by
  rw [acquireRL]
  dsimp only
  rw [if_neg (show ¬ (2 * limit <
    ((s.times.dropWhile (fun t => decide (t < now - 60))) ++
      [now + (if jb ∧ 0 < (if limit ≤
          (s.times.dropWhile (fun t => decide (t < now - 60))).length then
        (max 0 (((s.times.dropWhile (fun t => decide (t < now - 60))).headD 0 + 60) -
          now + 1/10)) * tm
      else
        if now - s.lastRequestTime < 60 / (limit : ℚ) then
          (60 / (limit : ℚ) - (now - s.lastRequestTime)) * tm
        else 0) then
        (if limit ≤ (s.times.dropWhile (fun t => decide (t < now - 60))).length then
          (max 0 (((s.times.dropWhile (fun t => decide (t < now - 60))).headD 0 + 60) -
            now + 1/10)) * tm
        else
          if now - s.lastRequestTime < 60 / (limit : ℚ) then
            (60 / (limit : ℚ) - (now - s.lastRequestTime)) * tm
          else 0) * j
      else
        (if limit ≤ (s.times.dropWhile (fun t => decide (t < now - 60))).length then
          (max 0 (((s.times.dropWhile (fun t => decide (t < now - 60))).headD 0 + 60) -
            now + 1/10)) * tm
        else
          if now - s.lastRequestTime < 60 / (limit : ℚ) then
            (60 / (limit : ℚ) - (now - s.lastRequestTime)) * tm
          else 0))]).length) by
    simp only [List.length_append, List.length_singleton]
    omega)]
  refine ⟨_, ?_, rfl, ?_⟩
  · have hmax : (0 : ℚ) ≤
        max 0 (((s.times.dropWhile (fun t => decide (t < now - 60))).headD 0 + 60) -
          now + 1/10) := le_max_left _ _
    split_ifs with h1 h2 h3 h4 <;> nlinarith [hmax]
  · intro hcap
    rw [if_pos hcap]
    generalize (s.times.dropWhile (fun t => decide (t < now - 60))).headD 0 = H
    have c1 : (H + 60) - now + 1/10 ≤ max 0 ((H + 60) - now + 1/10) := le_max_right _ _
    have c0 : (0 : ℚ) ≤ max 0 ((H + 60) - now + 1/10) := le_max_left _ _
    have c2 : max 0 ((H + 60) - now + 1/10) ≤ max 0 ((H + 60) - now + 1/10) * tm :=
      le_mul_of_one_le_right c0 htm
    split_ifs with hJ
    · have c3 : max 0 ((H + 60) - now + 1/10) * tm ≤
          max 0 ((H + 60) - now + 1/10) * tm * j :=
        le_mul_of_one_le_right (le_trans c0 c2) hj
      linarith
    · linarith

/-- One `acquire` call with multipliers ≥ 1 preserves the limiter invariant,
the new record appended to the history. -/
theorem acquireRL_preserves_inv (limit : ℕ) (hlim : 1 ≤ limit) (jb : Bool)
    (now j tm : ℚ) (hj : 1 ≤ j) (htm : 1 ≤ tm)
    (s : RLState) (hist : List ℚ) (hnow : s.lastRequestTime ≤ now)
    (hinv : RLInv limit hist s) :
    RLInv limit (hist ++ [(acquireRL limit jb now j tm s).2.lastRequestTime])
      (acquireRL limit jb now j tm s).2 := by
  have htsLen := evicted_len_le limit now s hnow hinv.lenLe hinv.lenCap
  obtain ⟨d, hd0, heq, hgap⟩ := acquireRL_spec limit jb now j tm s hlim hj htm htsLen
  set p : ℚ → Bool := fun t => decide (t < now - 60) with hp
  set ts := s.times.dropWhile p with htsdef
  have hs2 : (acquireRL limit jb now j tm s).2 = ⟨ts ++ [now + d], now + d⟩ := by
    rw [heq]
  rw [hs2]
  obtain ⟨pre, hpre, hpreLt⟩ := hinv.histSuffix
  have hEts : s.times.takeWhile p ++ ts = s.times := List.takeWhile_append_dropWhile p s.times
  have hEmem : ∀ t ∈ s.times.takeWhile p, t < now - 60 := by
    intro t ht
    have h1 := List.mem_takeWhile_imp ht
    simpa [hp] using h1
  have htsmem : ∀ t ∈ ts, t ∈ s.times := fun t ht => (List.dropWhile_sublist p).subset ht
  have hrnow : now ≤ now + d := by linarith
  have hgap2 : limit ≤ ts.length → ts.headD 0 + 60 < now + d := by
    intro hcap
    have := hgap hcap
    linarith
  have hdecomp : pre ++ s.times = pre ++ (s.times.takeWhile p ++ ts) := by rw [hEts]
  refine ⟨⟨pre ++ s.times.takeWhile p, ?_, ?_⟩, ?_, ?_, ?_, ?_⟩
  · dsimp only
    rw [hpre, hdecomp]
    simp [List.append_assoc]
  · intro t ht
    rcases List.mem_append.mp ht with h1 | h1
    · have := hpreLt t h1
      dsimp only
      linarith
    · have := hEmem t h1
      dsimp only
      linarith
  · intro t ht
    rcases List.mem_append.mp ht with h1 | h1
    · have := hinv.timesLe t (htsmem t h1)
      dsimp only
      linarith
    · dsimp only
      rw [List.mem_singleton.mp h1]
  · simp only [List.length_append, List.length_singleton]
    omega
  · intro hcap
    simp only [List.length_append, List.length_singleton] at hcap
    have hcap2 : limit ≤ ts.length := by omega
    have hhead : (ts ++ [now + d]).headD 0 = ts.headD 0 := by
      cases hts2 : ts with
      | nil =>
          rw [hts2] at hcap2
          simp at hcap2
          omega
      | cons a l => rfl
    rw [hhead]
    exact hgap2 hcap2
  · intro T
    dsimp only
    rw [List.countP_append]
    by_cases hTr : now + d ≤ T
    · have hone : List.countP (fun t => decide (T - 60 ≤ t ∧ t ≤ T)) [now + d] ≤ 1 :=
        le_trans (List.countP_le_length _) (by simp)
      have hlive : hist.countP (fun t => decide (T - 60 ≤ t ∧ t ≤ T)) ≤
          hist.countP (fun t => decide ((now + d) - 60 ≤ t)) := by
        apply List.countP_mono_left
        intro a ha hwa
        have hw := of_decide_eq_true hwa
        exact decide_eq_true (by cases hw with | intro h1 h2 => linarith)
      have hdecomp : pre ++ s.times = pre ++ (s.times.takeWhile p ++ ts) := by rw [hEts]
      have hsplit : hist.countP (fun t => decide ((now + d) - 60 ≤ t)) =
          (pre ++ s.times.takeWhile p).countP (fun t => decide ((now + d) - 60 ≤ t)) +
            ts.countP (fun t => decide ((now + d) - 60 ≤ t)) := by
        rw [hpre, hdecomp, ← List.append_assoc, List.countP_append]
      have hzero : (pre ++ s.times.takeWhile p).countP
          (fun t => decide ((now + d) - 60 ≤ t)) = 0 := by
        rw [List.countP_eq_zero]
        intro a ha
        rcases List.mem_append.mp ha with h1 | h1
        · have := hpreLt a h1
          simp only [decide_eq_true_eq]
          intro hcon
          linarith
        · have := hEmem a h1
          simp only [decide_eq_true_eq]
          intro hcon
          linarith
      have htscount : ts.countP (fun t => decide ((now + d) - 60 ≤ t)) + 1 ≤ limit := by
        by_cases hcap : limit ≤ ts.length
        · have hgap3 := hgap2 hcap
          cases hts2 : ts with
          | nil =>
              rw [hts2] at hcap
              simp at hcap
              omega
          | cons a l =>
              have hts3 : ts.length = limit := le_antisymm htsLen hcap
              have hheadfail : (decide ((now + d) - 60 ≤ a) : Bool) = false := by
                apply decide_eq_false
                have hha : ts.headD 0 = a := by rw [hts2]; rfl
                rw [hha] at hgap3
                linarith
              rw [List.countP_cons, hheadfail]
              simp only [Bool.false_eq_true, if_false]
              have : l.countP (fun t => decide ((now + d) - 60 ≤ t)) ≤ l.length :=
                List.countP_le_length _
              have hl : l.length + 1 = limit := by
                rw [hts2, List.length_cons] at hts3
                omega
              omega
        · have : ts.countP (fun t => decide ((now + d) - 60 ≤ t)) ≤ ts.length :=
            List.countP_le_length _
          omega
      have := hinv.winOK T
      omega
    · have hzero1 : List.countP (fun t => decide (T - 60 ≤ t ∧ t ≤ T)) [now + d] = 0 := by
        rw [List.countP_eq_zero]
        intro a ha
        rw [List.mem_singleton.mp ha]
        simp only [decide_eq_true_eq]
        intro hcon
        exact hTr hcon.2
      rw [hzero1]
      simpa using hinv.winOK T

/-- The invariant holds initially: empty history, fresh limiter. -/
theorem RLInv_init (limit : ℕ) : RLInv limit [] RLState.init := by
  refine ⟨⟨[], rfl, by simp⟩, by simp [RLState.init], by simp [RLState.init], ?_, by simp⟩
  intro h
  simp [RLState.init] at h

/-- Trailing-window bound along any serialized trace with multipliers ≥ 1,
relative to an invariant-carrying state. -/
theorem runRL_window_aux (limit : ℕ) (hlim : 1 ≤ limit) (jb : Bool) :
    ∀ (inputs : List (ℚ × ℚ × ℚ)) (s : RLState) (hist : List ℚ),
      ValidTrace limit jb s inputs →
      (∀ x ∈ inputs, 1 ≤ x.2.1 ∧ 1 ≤ x.2.2) →
      RLInv limit hist s →
      ∀ T : ℚ, ((hist ++ runRL limit jb s inputs).countP
          fun t => decide (T - 60 ≤ t ∧ t ≤ T)) ≤ limit
  | [], s, hist, hvalid, hb, hinv, T => by
      simpa [runRL] using hinv.winOK T
  | (now, j, tm) :: rest, s, hist, hvalid, hb, hinv, T => by
      obtain ⟨hnow, hvalid2⟩ := hvalid
      obtain ⟨hj, htm⟩ := hb _ (List.mem_cons_self _ _)
      have hinv2 := acquireRL_preserves_inv limit hlim jb now j tm hj htm s hist hnow hinv
      have hrw : hist ++ runRL limit jb s ((now, j, tm) :: rest) =
          (hist ++ [(acquireRL limit jb now j tm s).2.lastRequestTime]) ++
            runRL limit jb (acquireRL limit jb now j tm s).2 rest := by
        rw [runRL]
        simp [List.append_assoc]
      rw [hrw]
      exact runRL_window_aux limit hlim jb rest _ _ hvalid2
        (fun x hx => hb x (List.mem_cons_of_mem _ hx)) hinv2 T

/-- C1, amended: over any serialized sequence of `acquire` calls in which
every applied multiplier is at least 1 — jitter disabled, or every jitter
draw ≥ 1, and any token multiplier (they are 1, 1.1 or 1.2, all ≥ 1) — the
number of admitted timestamps inside any trailing 60-second window never
exceeds the effective ceiling, and an at-capacity call is admitted strictly
later than 60 seconds after the oldest surviving timestamp. The default
jitter bounds `[0.9, 1.6]` of the code permit draws below 1, which break both
properties (see the counterexample). -/
theorem rate_limiter_window_bound_with_unit_multipliers
    (limit : ℕ) (hlim : 1 ≤ limit) (jb : Bool) (inputs : List (ℚ × ℚ × ℚ))
    (hvalid : ValidTrace limit jb RLState.init inputs)
    (hbounds : ∀ x ∈ inputs, 1 ≤ x.2.1 ∧ 1 ≤ x.2.2) :
    (∀ T : ℚ, ((runRL limit jb RLState.init inputs).countP
        fun t => decide (T - 60 ≤ t ∧ t ≤ T)) ≤ limit) ∧
    ∀ (s : RLState) (now j tm : ℚ), 1 ≤ j → 1 ≤ tm →
      (s.times.dropWhile (fun t => decide (t < now - 60))).length ≤ limit →
      limit ≤ (s.times.dropWhile (fun t => decide (t < now - 60))).length →
      (s.times.dropWhile (fun t => decide (t < now - 60))).headD 0 + 60 <
        (acquireRL limit jb now j tm s).2.lastRequestTime := by
  constructor
  · intro T
    have := runRL_window_aux limit hlim jb inputs RLState.init [] hvalid hbounds
      (RLInv_init limit) T
    simpa using this
  · intro s now j tm hj htm hlen hcap
    obtain ⟨d, hd0, heq, hgap⟩ := acquireRL_spec limit jb now j tm s hlim hj htm hlen
    have h2 : (acquireRL limit jb now j tm s).2.lastRequestTime = now + d := by rw [heq]
    rw [h2]
    have := hgap hcap
    linarith

/-- Concrete instantiation of
`rate_limiter_window_bound_with_unit_multipliers`: ceiling 1, two calls with
jitter draws 1 and 3/2 (both ≥ 1), window ending at `T = 190`. -/
theorem rate_limiter_window_bound_witness :
    ((runRL 1 true RLState.init [(100, 1, 1), (100, 3/2, 1)]).countP
        fun t => decide ((190 : ℚ) - 60 ≤ t ∧ t ≤ 190)) ≤ 1 :=
  (rate_limiter_window_bound_with_unit_multipliers 1 (by norm_num) true
    [(100, 1, 1), (100, 3/2, 1)]
    (by norm_num [ValidTrace, acquireRL, RLState.init])
    (by intro x hx; fin_cases hx <;> norm_num)).1 190

/-- C1, counterexample: with the default jitter bounds `[0.9, 1.6]` a draw of
0.9 is possible. Ceiling `floor(2 * 0.9) = 1`; the first call is admitted at
`t = 100`; the second call finds the window at capacity, computes the wait
60.1 s to the oldest timestamp's expiry, multiplies it by the jitter draw 0.9
and is admitted at `t = 154.09` — earlier than `oldest + 60 = 160`, so the
trailing 60-second window ending at 154.09 holds 2 admitted calls, exceeding
the ceiling 1. -/
theorem jitter_below_one_breaks_window_invariant :
    effectiveLimit 2 (9/10) = 1 ∧
    runRL 1 true RLState.init [(100, 1, 1), (100, 9/10, 1)] = [100, 15409/100] ∧
    ((runRL 1 true RLState.init [(100, 1, 1), (100, 9/10, 1)]).countP
        fun t => decide ((15409/100 : ℚ) - 60 ≤ t ∧ t ≤ 15409/100)) = 2 ∧
    ValidTrace 1 true RLState.init [(100, 1, 1), (100, 9/10, 1)] ∧
    (15409/100 : ℚ) < 100 + 60 := by
  refine ⟨?_, ?_, ?_, ?_, by norm_num⟩
  · norm_num [effectiveLimit]
  · norm_num [runRL, acquireRL, RLState.init]
  · norm_num [runRL, acquireRL, RLState.init, List.countP_cons]
  · norm_num [ValidTrace, acquireRL, RLState.init]

/-- C10: the semaphore slot taken by the concurrency guard is given back on
every exit path — normal completion, a provider exception, and cancellation —
so the number of available slots after the guard equals the number before it;
the body's outcome is propagated unchanged; and if `acquire` itself never
completes, no slot is held and the count is likewise unchanged. -/
theorem concurrency_guard_restores_slots {α : Type}
    (slots : ℕ) (body : BodyOutcome α) (hslots : 1 ≤ slots) :
    (concurrencyGuard slots false body).2.1 = slots ∧
    (concurrencyGuard slots false body).1 = body ∧
    (concurrencyGuard slots true body).2.1 = slots := by
  refine ⟨?_, rfl, rfl⟩
  show slots - 1 + 1 = slots
  omega

/-- Concrete instantiation of `concurrency_guard_restores_slots` at the
default Gemini semaphore size 6, for each of the three body outcomes. -/
theorem concurrency_guard_restores_slots_witness :
    (concurrencyGuard 6 false (BodyOutcome.ok "text")).2.1 = 6 ∧
    (concurrencyGuard 6 false (BodyOutcome.ok "text")).1 = BodyOutcome.ok "text" ∧
    (concurrencyGuard 6 true (BodyOutcome.ok "text")).2.1 = 6 ∧
    (concurrencyGuard 6 false (BodyOutcome.raised : BodyOutcome String)).2.1 = 6 ∧
    (concurrencyGuard 6 false (BodyOutcome.cancelled : BodyOutcome String)).2.1 = 6 := by
  obtain ⟨h1, h2, h3⟩ :=
    concurrency_guard_restores_slots 6 (BodyOutcome.ok "text") (by norm_num)
  obtain ⟨h4, -, -⟩ :=
    concurrency_guard_restores_slots 6 (BodyOutcome.raised : BodyOutcome String) (by norm_num)
  obtain ⟨h5, -, -⟩ :=
    concurrency_guard_restores_slots 6 (BodyOutcome.cancelled : BodyOutcome String) (by norm_num)
  exact ⟨h1, h2, h3, h4, h5⟩

theorem canProceed_not_opened (t : ℚ) (s : CBState) (h : s.state ≠ .opened) :
    canProceed t s = (true, s) := by
  rw [canProceed, if_neg h]

theorem checkWindowReset_errorCount_le (cfg : CBConfig) (now : ℚ) (s : CBState) :
    (checkWindowReset cfg now s).errorCount ≤ s.errorCount := by
  unfold checkWindowReset
  split <;> simp

/-- A closed breaker that has strictly fewer than `min_errors_to_open` errors
even after this error stays closed, and its error count grows by at most 1. -/
theorem recordError_closed_stays (cfg : CBConfig) (t : ℚ) (b : Bool) (s : CBState)
    (h : s.state = .closed) (hb : s.errorCount + 1 < cfg.minErrorsToOpen) :
    (recordError cfg t b s).state = .closed ∧
    (recordError cfg t b s).errorCount ≤ s.errorCount + 1 := by
  rw [recordError]
  simp only [h]
  rw [if_neg (by simp)]
  have hth : ∀ s2 : CBState, s2.state = .closed → s2.errorCount < cfg.minErrorsToOpen →
      checkThreshold cfg t s2 = s2 := by
    intro s2 h2 hb2
    rw [checkThreshold]
    split_ifs with h1 h2' h3 h4
    · rfl
    · rfl
    · exact absurd h4.2.1 (by omega)
    · rfl
    · rfl
  rw [hth _ rfl (by dsimp only; split <;> omega)]
  refine ⟨?_, ?_⟩
  · rw [checkWindowReset_state]
  · refine le_trans (checkWindowReset_errorCount_le _ _ _) ?_
    dsimp only
    split <;> omega

/-- A `_call_gemini` retry loop performs at most one `_call_groq` invocation:
after every fallback the loop returns immediately. -/
theorem gemLoop_groqInvocations_le_one (cfg : GemCfg) (req : GemReq) (model : String)
    (attempts : List ℕ) (st : Clients) (o : Oracle) (gn : ℕ) :
    (gemLoop cfg req model attempts st o gn).groqInvocations ≤ 1 := by
  induction attempts generalizing st o gn with
  | nil => simp [gemLoop]
  | cons a rest ih =>
      rw [gemLoop]
      dsimp only
      repeat' split
      all_goals first | exact ih _ _ _ | simp

/-- Every `_call_gemini` run performs at most one `_call_groq` invocation. -/
theorem callGemini_groqInvocations_le_one (cfg : GemCfg) (req : GemReq)
    (st : Clients) (o : Oracle) :
    (callGemini cfg req st o).groqInvocations ≤ 1 := by
  rw [callGemini]
  dsimp only
  repeat' split
  all_goals first | apply gemLoop_groqInvocations_le_one | simp

/-- One iteration of the Gemini retry loop on a failing attempt, with the Groq
fallback configured and the breaker closed and far from its threshold: the
last attempt performs exactly one `_call_groq` invocation, any earlier attempt
recurses with the breaker still closed and at most one more recorded error. -/
theorem gemLoop_cons_exn (cfg : GemCfg) (req : GemReq) (model : String)
    (a : ℕ) (rest : List ℕ) (st : Clients) (o : Oracle) (gn : ℕ) (b : Bool)
    (hgp : cfg.groqPresent = true) (hgc : cfg.groq.clientAvailable = true)
    (hcb : st.gemCB.state = .closed)
    (hbound : st.gemCB.errorCount + 1 < cfg.cbCfg.minErrorsToOpen)
    (hhead : o.gem.headD (.exn false) = .exn b) :
    (a = cfg.maxRetries - 1 →
      (gemLoop cfg req model (a :: rest) st o gn).groqInvocations = 1) ∧
    (a ≠ cfg.maxRetries - 1 →
      ∃ st2 o2, gemLoop cfg req model (a :: rest) st o gn =
          gemLoop cfg req model rest st2 o2 (gn + 1) ∧
        st2.gemCB.state = .closed ∧
        st2.gemCB.errorCount ≤ st.gemCB.errorCount + 1 ∧
        o2.gem = o.gem.tail) := by
  have hne : st.gemCB.state ≠ .opened := by rw [hcb]; simp
  have hcp : ∀ t : ℚ, canProceed t st.gemCB = (true, st.gemCB) :=
    fun t => canProceed_not_opened t _ hne
  have hrec : ∀ t : ℚ, (recordError cfg.cbCfg t true st.gemCB).state = .closed ∧
      (recordError cfg.cbCfg t true st.gemCB).errorCount ≤ st.gemCB.errorCount + 1 :=
    fun t => recordError_closed_stays cfg.cbCfg t true st.gemCB hcb hbound
  have hcp2 : ∀ t t2 : ℚ,
      canProceed t2 (recordError cfg.cbCfg t true st.gemCB) =
        (true, recordError cfg.cbCfg t true st.gemCB) :=
    fun t t2 => canProceed_not_opened t2 _ (by rw [(hrec t).1]; simp)
  rw [gemLoop]
  by_cases ha : 0 < a <;> cases b <;>
    simp only [ha, if_true, if_false, ite_true, ite_false, Oracle.popGem, Oracle.popTime,
      hcp, hhead, hcp2, Bool.not_true, Bool.false_eq_true, Bool.not_false]
  all_goals refine ⟨fun hlast => ?_, fun hlast => ?_⟩
  all_goals first
    | (rw [if_pos hlast, if_pos (And.intro hgp hgc)]
       split <;> rfl)
    | (rw [if_neg hlast]
       refine ⟨_, _, rfl, ?_, ?_, rfl⟩ <;>
         first
           | exact hcb
           | exact (hrec _).1
           | exact Nat.le_succ _
           | exact (hrec _).2)

/-- Head outcome of an all-failures oracle. -/
theorem allExn_headD (l : List NetOutcome)
    (hexn : ∀ x ∈ l, ∃ e, x = NetOutcome.exn e) :
    ∃ e, l.headD (.exn false) = .exn e := by
  cases hg : l with
  | nil => exact ⟨false, rfl⟩
  | cons x t =>
      obtain ⟨e, he⟩ := hexn x (by rw [hg]; exact List.mem_cons_self x t)
      exact ⟨e, by simpa using he⟩

/-- Running the Gemini retry loop over attempt indices `pre ++ [maxRetries-1]`
(none of the earlier indices being the last one) with every network attempt
failing, the Groq fallback configured, and the breaker closed and further from
its threshold than the number of attempts: exactly one `_call_groq`
invocation happens. -/
theorem gemLoop_all_exn_aux (cfg : GemCfg) (req : GemReq) (model : String)
    (hgp : cfg.groqPresent = true) (hgc : cfg.groq.clientAvailable = true) :
    ∀ (pre : List ℕ) (st : Clients) (o : Oracle) (gn : ℕ),
      (∀ x ∈ pre, x ≠ cfg.maxRetries - 1) →
      st.gemCB.state = .closed →
      st.gemCB.errorCount + pre.length + 1 < cfg.cbCfg.minErrorsToOpen →
      (∀ x ∈ o.gem, ∃ e, x = NetOutcome.exn e) →
      (gemLoop cfg req model (pre ++ [cfg.maxRetries - 1]) st o gn).groqInvocations = 1
  | [], st, o, gn, hpre, hcb, hbound, hexn => by
      obtain ⟨e, he⟩ := allExn_headD o.gem hexn
      simpa using
        (gemLoop_cons_exn cfg req model _ [] st o gn e hgp hgc hcb (by omega) he).1 rfl
  | p :: pre, st, o, gn, hpre, hcb, hbound, hexn => by
      obtain ⟨e, he⟩ := allExn_headD o.gem hexn
      obtain ⟨st2, o2, heq, hst2, herr2, hgem2⟩ :=
        (gemLoop_cons_exn cfg req model p (pre ++ [cfg.maxRetries - 1]) st o gn e
          hgp hgc hcb (by rw [List.length_cons] at hbound; omega) he).2
          (hpre p (List.mem_cons_self p pre))
      rw [List.cons_append, heq]
      refine gemLoop_all_exn_aux cfg req model hgp hgc pre st2 o2 (gn + 1)
        (fun x hx => hpre x (List.mem_cons_of_mem p hx)) hst2 ?_ ?_
      · rw [List.length_cons] at hbound
        omega
      · intro x hx
        rw [hgem2] at hx
        exact hexn x (List.mem_of_mem_tail hx)

/-- C3, amended: when the primary (Gemini) provider fails all of its retry
attempts — every network attempt raising an exception, the cache empty, the
Gemini breaker closed and too far from its threshold to open during the run —
exactly one `_call_groq` invocation is attempted before `_call_gemini`
returns; and in full generality every `_call_gemini` run makes at most one
`_call_groq` invocation. That single invocation is not a single secondary
network attempt: `_call_groq` runs its own retry loop of up to
`max_retries = 3` network attempts (see the counterexample). -/
theorem primary_exhaustion_invokes_groq_exactly_once
    (cfg : GemCfg) (req : GemReq) (st : Clients) (o : Oracle)
    (hclient : cfg.clientAvailable = true)
    (hgp : cfg.groqPresent = true) (hgc : cfg.groq.clientAvailable = true)
    (hmr : 1 ≤ cfg.maxRetries)
    (hcache : st.gemCache = [])
    (hcb : st.gemCB.state = .closed)
    (hbound : st.gemCB.errorCount + cfg.maxRetries < cfg.cbCfg.minErrorsToOpen)
    (hexn : ∀ x ∈ o.gem, ∃ e, x = NetOutcome.exn e) :
    (callGemini cfg req st o).groqInvocations = 1 ∧
    ∀ (cfg2 : GemCfg) (req2 : GemReq) (st2 : Clients) (o2 : Oracle),
      (callGemini cfg2 req2 st2 o2).groqInvocations ≤ 1 := by
  refine ⟨?_, fun cfg2 req2 st2 o2 => callGemini_groqInvocations_le_one cfg2 req2 st2 o2⟩
  have hcp : ∀ t : ℚ, canProceed t st.gemCB = (true, st.gemCB) :=
    fun t => canProceed_not_opened t _ (by rw [hcb]; simp)
  rw [callGemini]
  simp only [hclient, Bool.not_true, Bool.false_eq_true, if_false, ite_false, hcache,
    cacheGet, List.find?_nil, Option.map_none', ite_self, Oracle.popTime, hcp]
  obtain ⟨k, hk⟩ : ∃ k, cfg.maxRetries = k + 1 := ⟨cfg.maxRetries - 1, by omega⟩
  rw [hk, List.range_succ]
  have hk1 : cfg.maxRetries - 1 = k := by omega
  rw [← hk1]
  refine gemLoop_all_exn_aux cfg req _ hgp hgc (List.range (cfg.maxRetries - 1)) _ _ 0
    ?_ hcb ?_ hexn
  · intro x hx
    have := List.mem_range.mp hx
    omega
  · dsimp only
    rw [List.length_range]
    omega

/-- Concrete instantiation of `primary_exhaustion_invokes_groq_exactly_once`:
a fully configured client, fresh state, and three failing Gemini attempts
yield exactly one `_call_groq` invocation. -/
theorem primary_exhaustion_invokes_groq_once_witness :
    (callGemini gemCfg0 ⟨"p", none, false, none, true⟩ clients0
      ⟨[.exn false, .exn false, .exn false], [.exn false, .exn false, .exn false], []⟩
      ).groqInvocations = 1 :=
  (primary_exhaustion_invokes_groq_exactly_once gemCfg0 ⟨"p", none, false, none, true⟩
    clients0 ⟨[.exn false, .exn false, .exn false], [.exn false, .exn false, .exn false], []⟩
    rfl rfl rfl (by norm_num [gemCfg0]) rfl rfl
    (by norm_num [clients0, CBState.init, gemCfg0, CBConfig.default])
    (by
      intro x hx
      simp only [List.mem_cons, List.not_mem_nil, or_false] at hx
      rcases hx with h | h | h <;> exact ⟨false, h⟩)).1

/-- C3, counterexample: with the primary provider failing all three retry
attempts (plain transient errors) and the secondary also failing with
transient errors, the single `_call_groq` invocation performs THREE network
attempts against the secondary provider before `_call_gemini` returns
failure — not at most one secondary network attempt as the claim states. -/
theorem secondary_fallback_makes_three_network_attempts :
    (callGemini gemCfg0 ⟨"p", none, false, none, true⟩ clients0
      ⟨[.exn false, .exn false, .exn false], [.exn false, .exn false, .exn false], []⟩
      ).result = none ∧
    (callGemini gemCfg0 ⟨"p", none, false, none, true⟩ clients0
      ⟨[.exn false, .exn false, .exn false], [.exn false, .exn false, .exn false], []⟩
      ).groqInvocations = 1 ∧
    (callGemini gemCfg0 ⟨"p", none, false, none, true⟩ clients0
      ⟨[.exn false, .exn false, .exn false], [.exn false, .exn false, .exn false], []⟩
      ).groqNet = 3 := by
  have hr : List.range 3 = [0, 1, 2] := rfl
  refine ⟨?_, ?_, ?_⟩ <;>
    simp [callGemini, gemLoop, callGroq, groqLoop, gemCfg0, groqCfg0, clients0,
      CBState.init, canProceed, Oracle.popTime, Oracle.popGem, Oracle.popGroq, cacheGet,
      groqCacheKey, getCacheKey, strTruthy, hr, recordSuccess, recordError, checkThreshold,
      errorRate, checkWindowReset, CBConfig.default, cachePut,
      show ¬ ((30 : ℚ) < 0) by norm_num]

/-- C7 (code bug): once `calls_used` reaches `max_calls`, `can_make_call`
does answer `false`; but the invocation layer never consults the budget —
`_call_gemini` takes no budget input and no call site of
`RequestBudget.can_make_call` / `record_call` / `get_budget` exists outside
`request_budget.py` — so a provider request for a submission with an
exhausted budget is still sent over the network (here one network attempt,
answered successfully). -/
theorem budget_exhausted_but_network_attempt_still_made :
    RequestBudget.canMakeCall
      { submissionId := "sub-1", maxCalls := 5, callsUsed := 5, callHistory := [] } = false ∧
    (callGemini gemCfg0 ⟨"p", none, false, none, true⟩ clients0
      ⟨[.ok "R"], [], []⟩).gemNet = 1 ∧
    (callGemini gemCfg0 ⟨"p", none, false, none, true⟩ clients0
      ⟨[.ok "R"], [], []⟩).result = some "R" := by
  have hr : List.range 3 = [0, 1, 2] := rfl
  refine ⟨rfl, ?_, ?_⟩ <;>
    simp [callGemini, gemLoop, gemCfg0, groqCfg0, clients0, CBState.init, canProceed,
      Oracle.popTime, Oracle.popGem, cacheGet, getCacheKey, strTruthy, hr, recordSuccess,
      checkWindowReset, CBConfig.default, cachePut,
      show "R".isEmpty = false from rfl,
      show ¬ ((30 : ℚ) < 0) by norm_num]

/-- C4 (code bug): for an image request the cache-lookup key is derived from
the first 16 characters of the image digest (`image_hash[:16]`,
`gemini_client.py` line 168) while the cache-store key uses the full digest
(line 265), so the two keys differ and a second, byte-identical image request
misses the cache and performs a second network call. For a text-only request
lookup and store keys coincide and the second identical call is served from
the cache with no network attempt. -/
theorem image_cache_lookup_misses_stored_entry :
    getCacheKey "gemini-2.5-pro" "p" (some "gemini-2.5-pro")
        (some (("0123456789abcdef0123456789abcdef0123456789abcdef0123456789abcdef" :
          String).take 16)) none ≠
      getCacheKey "gemini-2.5-pro" "p" (some "gemini-2.5-pro")
        (some "0123456789abcdef0123456789abcdef0123456789abcdef0123456789abcdef") none ∧
    (callGemini gemCfg0
      ⟨"p", none, true,
        some "0123456789abcdef0123456789abcdef0123456789abcdef0123456789abcdef", true⟩
      clients0 ⟨[.ok "R"], [], []⟩).result = some "R" ∧
    (callGemini gemCfg0
      ⟨"p", none, true,
        some "0123456789abcdef0123456789abcdef0123456789abcdef0123456789abcdef", true⟩
      clients0 ⟨[.ok "R"], [], []⟩).gemNet = 1 ∧
    (callGemini gemCfg0
      ⟨"p", none, true,
        some "0123456789abcdef0123456789abcdef0123456789abcdef0123456789abcdef", true⟩
      (callGemini gemCfg0
        ⟨"p", none, true,
          some "0123456789abcdef0123456789abcdef0123456789abcdef0123456789abcdef", true⟩
        clients0 ⟨[.ok "R"], [], []⟩).st
      ⟨[.ok "R"], [], []⟩).gemNet = 1 ∧
    (callGemini gemCfg0 ⟨"p", none, false, none, true⟩
      (callGemini gemCfg0 ⟨"p", none, false, none, true⟩ clients0
        ⟨[.ok "R"], [], []⟩).st
      ⟨[.ok "R"], [], []⟩).gemNet = 0 ∧
    (callGemini gemCfg0 ⟨"p", none, false, none, true⟩
      (callGemini gemCfg0 ⟨"p", none, false, none, true⟩ clients0
        ⟨[.ok "R"], [], []⟩).st
      ⟨[.ok "R"], [], []⟩).result = some "R" := by
  have hr : List.range 3 = [0, 1, 2] := rfl
  refine ⟨by decide, ?_, ?_, ?_, ?_, ?_⟩ <;>
    simp [callGemini, gemLoop, gemCfg0, groqCfg0, clients0, CBState.init, canProceed,
      Oracle.popTime, Oracle.popGem, cacheGet, getCacheKey, strTruthy, hr, recordSuccess,
      checkWindowReset, CBConfig.default, cachePut,
      show "R".isEmpty = false from rfl,
      show ("0123456789abcdef0123456789abcdef0123456789abcdef0123456789abcdef" :
        String).isEmpty = false from rfl,
      show ("0123456789abcdef0123456789abcdef0123456789abcdef0123456789abcdef" :
        String).take 16 = "0123456789abcdef" from rfl,
      show ("0123456789abcdef" : String).isEmpty = false from rfl,
      show ¬ ((30 : ℚ) < 0) by norm_num]

/-- C8, counterexample: in a batch that starts with the throttling flag clear,
the first submission observes a throttling error, yet the two remaining
submissions of that batch are still processed in parallel mode — not
sequentially as the claim requires; and the next batch starts with the flag
still set (flag survives untouched even though that batch sees no throttling),
so it is not reset at the start of the next batch. -/
theorem batch_mode_not_switched_mid_batch :
    (validateBatch false [true, false, false]).modes =
      [ProcMode.parallel, ProcMode.parallel, ProcMode.parallel] ∧
    (validateBatch false [true, false, false]).flagAfter = true ∧
    (validateBatch true [false]).flagAfter = true ∧
    (validateBatch true [false]).modes = [ProcMode.sequential] := by
  decide

/-- C8, amended: the batch-wide throttling flag is set the first time any
worker observes a throttling error, but the parallel/sequential decision is
taken exactly once per batch, from the flag's value at batch start — every
submission of a batch runs under that single mode, a flag set mid-batch only
affects later batches, and the flag is never reset (it stays set for the rest
of the process, so every later batch runs sequentially). -/
theorem batch_mode_decided_once_and_flag_sticky (flag : Bool) (subs : List Bool) :
    (validateBatch flag subs).modes =
      subs.map (fun _ => if flag then ProcMode.sequential else ProcMode.parallel) ∧
    (validateBatch flag subs).flagAfter = (flag || subs.any id) := by
  cases flag <;> simp [validateBatch]

/-- C9, counterexample: a submission whose theme check could not be completed
(primary, retry and fallback all exhausted — every provider answer absent) is
reported exactly like one the provider verified and answered "NO": the same
failed `ValidationResult` and the same final status "Rejected". No distinct
"could not verify" status is produced. -/
theorem unverifiable_indistinguishable_from_failing :
    checkThemeAlignment none none none true = false ∧
    checkThemeAlignment (some "NO") none none true = false ∧
    validateThemeAlignment (checkThemeAlignment none none none true) 33 "no alignment" =
      validateThemeAlignment (checkThemeAlignment (some "NO") none none true) 33 "no alignment" ∧
    determineStatus false false 0 60 = "Rejected" :=
  ⟨rfl, rfl, rfl, rfl⟩

/-- C9, amended: a submission whose semantic checks could not be completed is
scored fail-closed — the affected criterion is reported as failed with 0
points — and every submission receives one of the three ordinary statuses
"Reopen", "Accepted", "Rejected"; no separate could-not-verify status exists
in the output, so infrastructure failure is not distinguishable from a
verified rule violation. -/
theorem no_could_not_verify_status (geminiFirst : Bool) (points : ℕ) (msg : String)
    (pdfMissing imagesMissing : Bool) (totalPoints threshold : ℕ) :
    checkThemeAlignment none none none geminiFirst = false ∧
    validateThemeAlignment (checkThemeAlignment none none none geminiFirst) points msg =
      { passed := false, pointsAwarded := 0, message := msg } ∧
    (determineStatus pdfMissing imagesMissing totalPoints threshold = "Reopen" ∨
     determineStatus pdfMissing imagesMissing totalPoints threshold = "Accepted" ∨
     determineStatus pdfMissing imagesMissing totalPoints threshold = "Rejected") := by
  refine ⟨?_, ?_, ?_⟩
  · cases geminiFirst <;> rfl
  · cases geminiFirst <;> rfl
  · rw [determineStatus]
    split_ifs <;> simp

end EventValidator
